import Mathlib

/-!
Verification of the PAN-OS upgrade utility library: a shallow embedding of
`library/module_utils/panos_common.py` and `filter_plugins/panos_filters.py`
(version parsing and ordering, upgrade-path matrix validation, XML response
normalization, job polling, HA state extraction), with theorems settling the
specification claims about those functions.

Conventions of the embedding:
* Python `dict`s become insertion-ordered association lists.
* Python values that may be a dict, a list, a string or `None` become `JsonVal`.
* Fallible Python code (functions that may `raise`) returns `Except`.
* `re`'s `\d` is modelled as an ASCII digit and `str.strip()` strips ASCII
  whitespace; machine integers do not occur (all counters are `Nat`).
-/

/-- A value stored in the `details` dict of a `PanosException`. -/
inductive DVal where
  | str (s : String)
  | nat (n : Nat)
deriving DecidableEq, Repr

/-- Embeds the `PanosException` class of `panos_common.py`: a message, an
optional machine-readable `error_code`, and a `details` dict. -/
structure PanosException where
  message : String
  error_code : Option String
  details : List (String × DVal)
deriving DecidableEq, Repr

/-- First-match lookup in an insertion-ordered association list (Python
`d[k]` / `k in d` on a dict whose keys are unique). -/
def alistLookup {α : Type} : List (String × α) → String → Option α
  | [], _ => none
  | (k, v) :: rest, key => if k = key then some v else alistLookup rest key

/-- Python `str.strip()` on a character list: drop whitespace at both ends. -/
def pyStrip (cs : List Char) : List Char :=
  ((cs.dropWhile Char.isWhitespace).reverse.dropWhile Char.isWhitespace).reverse

/-- Numeric value of a digit string (`int(...)` on a `\d+` regex group). -/
def digitsToNat (ds : List Char) : Nat :=
  ds.foldl (fun n c => 10 * n + (c.toNat - 48)) 0

/-- Split a character list into its leading ASCII-digit run and the rest
(the greedy `\d+` step of the version regex). -/
def spanDigits (cs : List Char) : List Char × List Char :=
  (cs.takeWhile Char.isDigit, cs.dropWhile Char.isDigit)

/-- One optional suffix group `(?:-m(\d+))?` of the version regex: consume
`-m` followed by at least one digit, or consume nothing. -/
def parseOptSuffix (marker : Char) (cs : List Char) : Nat × List Char :=
  match cs with
  | '-' :: m :: rest =>
    if m = marker then
      let ds := spanDigits rest
      if ds.1 = [] then (0, cs) else (digitsToNat ds.1, ds.2)
    else (0, cs)
  | _ => (0, cs)

/-- The anchored match of `^(\d+)\.(\d+)\.(\d+)(?:-h(\d+))?(?:-c(\d+))?$`
against an already-stripped character list, returning
`(major, minor, patch, hotfix, candidate)` with absent groups as 0. -/
def parseVersionCore (cs : List Char) : Option (Nat × Nat × Nat × Nat × Nat) :=
  let s1 := spanDigits cs
  if s1.1 = [] then none else
  match s1.2 with
  | '.' :: r2 =>
    let s2 := spanDigits r2
    if s2.1 = [] then none else
    match s2.2 with
    | '.' :: r4 =>
      let s3 := spanDigits r4
      if s3.1 = [] then none else
      let h := parseOptSuffix 'h' s3.2
      let c := parseOptSuffix 'c' h.2
      if c.2 = [] then
        some (digitsToNat s1.1, digitsToNat s2.1, digitsToNat s3.1, h.1, c.1)
      else none
    | _ => none
  | _ => none

/-- The parsed-version dict built by `parse_panos_version` in both source
files: major/minor/patch with hotfix/candidate defaulting to 0, plus the
stripped raw string. -/
structure ParsedVersion where
  major : Nat
  minor : Nat
  patch : Nat
  hotfix : Nat
  candidate : Nat
  raw : String
deriving DecidableEq, Repr

/-- `parse_panos_version` (identical in `panos_common.py` and
`panos_filters.py`): `None` for a falsy input or a regex mismatch, else the
component dict. -/
def parse_panos_version (version_string : String) : Option ParsedVersion :=
  if version_string = "" then none
  else
    let stripped := pyStrip version_string.data
    match parseVersionCore stripped with
    | none => none
    | some (ma, mi, pa, h, c) => some ⟨ma, mi, pa, h, c, ⟨stripped⟩⟩

/-- The shared comparison loop `for key in ['major','minor','patch','hotfix']`
of `compare_versions` / `panos_version_compare`: lexicographic over the four
keys, ignoring `candidate`. -/
def versionCmp (v1 v2 : ParsedVersion) : Int :=
  if v1.major < v2.major then -1 else if v2.major < v1.major then 1
  else if v1.minor < v2.minor then -1 else if v2.minor < v1.minor then 1
  else if v1.patch < v2.patch then -1 else if v2.patch < v1.patch then 1
  else if v1.hotfix < v2.hotfix then -1 else if v2.hotfix < v1.hotfix then 1
  else 0

/-- `compare_versions` from `panos_common.py`: raises
`PanosException(INVALID_VERSION)` when either input fails to parse. -/
def compare_versions (version1 version2 : String) : Except PanosException Int :=
  match parse_panos_version version1, parse_panos_version version2 with
  | some v1, some v2 => .ok (versionCmp v1 v2)
  | _, _ =>
    .error ⟨"Invalid version format", some "INVALID_VERSION",
      [("version1", .str version1), ("version2", .str version2)]⟩

/-- `panos_version_compare` from `panos_filters.py`: `None` when either input
fails to parse, else the comparison result. -/
def panos_version_compare (version1 version2 : String) : Option Int :=
  match parse_panos_version version1, parse_panos_version version2 with
  | some v1, some v2 => some (versionCmp v1 v2)
  | _, _ => none

/-- `panos_version_gte`: `result is not None and result >= 0`. -/
def panos_version_gte (version1 version2 : String) : Bool :=
  match panos_version_compare version1 version2 with
  | none => false
  | some r => decide (0 ≤ r)

/-- `panos_version_lte`: `result is not None and result <= 0`. -/
def panos_version_lte (version1 version2 : String) : Bool :=
  match panos_version_compare version1 version2 with
  | none => false
  | some r => decide (r ≤ 0)

/-- `panos_version_gt`: `result is not None and result > 0`. -/
def panos_version_gt (version1 version2 : String) : Bool :=
  match panos_version_compare version1 version2 with
  | none => false
  | some r => decide (0 < r)

/-- `panos_version_lt`: `result is not None and result < 0`. -/
def panos_version_lt (version1 version2 : String) : Bool :=
  match panos_version_compare version1 version2 with
  | none => false
  | some r => decide (r < 0)

/-- `panos_version_eq`: `result is not None and result == 0`. -/
def panos_version_eq (version1 version2 : String) : Bool :=
  match panos_version_compare version1 version2 with
  | none => false
  | some r => decide (r = 0)

/-- `panos_normalize_version`: the input unchanged when unparseable, else
`major.minor.patch` with a `-h{hotfix}` suffix only when `hotfix > 0`. -/
def panos_normalize_version (version : String) : String :=
  match parse_panos_version version with
  | none => version
  | some p =>
    let base := Nat.repr p.major ++ "." ++ Nat.repr p.minor ++ "." ++ Nat.repr p.patch
    if 0 < p.hotfix then base ++ "-h" ++ Nat.repr p.hotfix else base

/-- The f-string `f"{v['major']}.{v['minor']}"` used for matrix keys in
`is_upgrade_path_valid`. -/
def majorMinor (p : ParsedVersion) : String :=
  Nat.repr p.major ++ "." ++ Nat.repr p.minor

/-- One entry of the caller-supplied upgrade matrix: the
`direct_upgrade_to` list and the `intermediate_required` map. -/
structure MatrixEntry where
  direct_upgrade_to : List String
  intermediate_required : List (String × List String)
deriving DecidableEq, Repr

/-- `is_upgrade_path_valid` from `panos_common.py`, with the two
`compare_versions` calls threaded through `Except` exactly as the Python
exceptions would propagate. -/
def is_upgrade_path_valid (current_version target_version : String)
    (version_matrix : List (String × MatrixEntry)) :
    Except PanosException (Bool × List String) :=
  match parse_panos_version current_version, parse_panos_version target_version with
  | some current, some target =>
    match compare_versions current_version target_version with
    | .error e => .error e
    | .ok c1 =>
      if c1 = 0 then .ok (true, [])
      else
        match compare_versions current_version target_version with
        | .error e => .error e
        | .ok c2 =>
          if 0 < c2 then .ok (false, [])
          else
            match alistLookup version_matrix (majorMinor current) with
            | some entry =>
              if entry.direct_upgrade_to.contains (majorMinor target) then
                .ok (true, [])
              else
                match alistLookup entry.intermediate_required (majorMinor target) with
                | some seq => .ok (true, seq)
                | none => .ok (false, [])
            | none => .ok (false, [])
  | _, _ => .ok (false, [])

/-- Modelled from the spec: the seven-step algorithm of §4.2
(`isUpgradePathValid`) written from the spec's words, for comparison with the
source translation `is_upgrade_path_valid`. -/
def upgradePathSpec (current target : String)
    (matrix : List (String × MatrixEntry)) : Bool × List String :=
  match parse_panos_version current, parse_panos_version target with
  | some c, some t =>
    if versionCmp c t = 0 then (true, [])
    else if 0 < versionCmp c t then (false, [])
    else
      match alistLookup matrix (majorMinor c) with
      | none => (false, [])
      | some entry =>
        if entry.direct_upgrade_to.contains (majorMinor t) then (true, [])
        else
          match alistLookup entry.intermediate_required (majorMinor t) with
          | some seq => (true, seq)
          | none => (false, [])
  | _, _ => (false, [])

/-- A normalized Python value: `None`, a string, an insertion-ordered dict, or
a list — the value space of `xml_element_to_dict` and of normalized response
`data`. -/
inductive JsonVal where
  | null
  | str (s : String)
  | obj (fields : List (String × JsonVal))
  | arr (items : List JsonVal)

mutual
/-- An `xml.etree.ElementTree` element: tag, attribute dict, child elements
in document order, and the text before the first child (`None` or a
string). -/
inductive XmlElem where
  | mk (tag : String) (attrs : List (String × String)) (children : XmlForest)
      (text : Option String)
/-- The child list of an `XmlElem` (a chained list so that the Lean
translation of the Python recursion is structural). -/
inductive XmlForest where
  | nil
  | cons (head : XmlElem) (tail : XmlForest)
end

def XmlElem.tag : XmlElem → String
  | .mk t _ _ _ => t

def XmlElem.attrs : XmlElem → List (String × String)
  | .mk _ a _ _ => a

def XmlElem.children : XmlElem → XmlForest
  | .mk _ _ cs _ => cs

def XmlElem.text : XmlElem → Option String
  | .mk _ _ _ tx => tx

/-- View an `XmlForest` as an ordinary list of elements. -/
def XmlForest.toList : XmlForest → List XmlElem
  | .nil => []
  | .cons c rest => c :: XmlForest.toList rest

/-- Python `isinstance(v, list)`. -/
def JsonVal.isArr : JsonVal → Bool
  | .arr _ => true
  | _ => false

/-- The list a value is turned into when a same-named sibling arrives:
an existing list stays itself, any other value becomes a singleton. -/
def toListVals : JsonVal → List JsonVal
  | .arr l => l
  | v => [v]

/-- Python dict assignment `d[key] = v`: replace in place when the key
exists, append otherwise. -/
def setKey : List (String × JsonVal) → String → JsonVal → List (String × JsonVal)
  | [], key, v => [(key, v)]
  | (k, w) :: rest, key, v =>
    if k = key then (k, v) :: rest else (k, w) :: setKey rest key v

/-- One step of the child loop in `xml_element_to_dict`: a first occurrence
of a tag is stored directly, a repeated occurrence turns the slot into a
list and appends. -/
def addChild (d : List (String × JsonVal)) (tag : String) (v : JsonVal) :
    List (String × JsonVal) :=
  match alistLookup d tag with
  | none => d ++ [(tag, v)]
  | some w => setKey d tag (.arr (toListVals w ++ [v]))

/-- The whole child loop of `xml_element_to_dict` over the already-converted
`(tag, value)` pairs in document order. -/
def childFold (ps : List (String × JsonVal)) : List (String × JsonVal) :=
  ps.foldl (fun d p => addChild d p.1 p.2) []

/-- Python `result.update(child_dict)`: each update key replaces an existing
binding in place or is appended. -/
def dictUpdate (base upd : List (String × JsonVal)) : List (String × JsonVal) :=
  upd.foldl (fun acc p => setKey acc p.1 p.2) base

mutual
/-- `xml_element_to_dict` from `panos_common.py`: attributes under
`"@attributes"`, children grouped by tag (repeats become lists), stripped
text as `"#text"` or, for an otherwise empty element, as the value itself;
an element with nothing at all becomes `None`. -/
def xml_element_to_dict : XmlElem → JsonVal
  | .mk _ attrs cs tx =>
    let base : List (String × JsonVal) :=
      if attrs.isEmpty then []
      else [("@attributes", JsonVal.obj (attrs.map (fun p => (p.1, JsonVal.str p.2))))]
    let result := dictUpdate base (childFold (childPairs cs))
    let t : String := ⟨pyStrip (tx.getD "").data⟩
    if t = "" then
      if result.isEmpty then JsonVal.null else JsonVal.obj result
    else
      if result.isEmpty then JsonVal.str t
      else JsonVal.obj (setKey result "#text" (JsonVal.str t))

/-- The `(child.tag, xml_element_to_dict(child))` pairs of a forest in
document order. -/
def childPairs : XmlForest → List (String × JsonVal)
  | .nil => []
  | .cons c rest => (c.tag, xml_element_to_dict c) :: childPairs rest
end

/-- All proper descendants of the elements of a forest, in document order
(the element set traversed by `find('.//tag')` / `findall('.//tag')` when
applied below a root). -/
def descF : XmlForest → List XmlElem
  | .nil => []
  | .cons (.mk t a cc tx) rest =>
    (XmlElem.mk t a cc tx) :: (descF cc ++ descF rest)

/-- The normalized response record built by `parse_xml_response`. -/
structure NormalizedResponse where
  status : String
  code : Option String
  success : Bool
  data : JsonVal
  message : Option String

/-- `line.text if line.text` — the truthiness filter in the `<line>` join. -/
def lineText (e : XmlElem) : Option String :=
  match e.text with
  | some s => if s = "" then none else some s
  | none => none

/-- Attribute lookup `element.get(key)`. -/
def xmlAttr (e : XmlElem) (key : String) : Option String :=
  alistLookup e.attrs key

/-- `parse_xml_response` from `panos_common.py`. The underlying
`ET.fromstring` library call is a parameter (`fromstring`), standing for
the external XML parser: a `.error` result models `ET.ParseError` with its
message. On parser failure the function raises
`PanosException(XML_PARSE_ERROR)` with the payload truncated to 500
characters; on success it builds the normalized record: `status`/`code`
root attributes, `success = (status == "success")`, the first descendant
`<msg>`'s text (or the joined texts of its `<line>` descendants), and the
first descendant `<result>` normalized by `xml_element_to_dict`. -/
def parse_xml_response (fromstring : String → Except String XmlElem)
    (xml_string : String) : Except PanosException NormalizedResponse :=
  match fromstring xml_string with
  | .error e =>
    .error ⟨"Failed to parse XML response: " ++ e, some "XML_PARSE_ERROR",
      [("raw_response", .str ⟨xml_string.data.take 500⟩)]⟩
  | .ok root =>
    let status := (xmlAttr root "status").getD "unknown"
    let code := xmlAttr root "code"
    let message : Option String :=
      match (descF root.children).find? (fun e => e.tag = "msg") with
      | none => none
      | some m =>
        let t := m.text.getD ""
        if t ≠ "" then some t
        else
          let lines := (descF m.children).filter (fun e => e.tag = "line")
          if lines.isEmpty then none
          else some (String.intercalate "\n" (lines.filterMap lineText))
    let data : JsonVal :=
      match (descF root.children).find? (fun e => e.tag = "result") with
      | some r => xml_element_to_dict r
      | none => .obj []
    .ok ⟨status, code, status == "success", data, message⟩

/-- The `data.job` record of one polled job-status response, with each field
optional the way `dict.get` treats missing keys. -/
structure JobFields where
  status : Option String
  result : Option String
  progress : Option String
deriving DecidableEq, Repr

/-- One response of `api_client.get_job_status`; `job` is absent when the
response's `data` has no `job` key. -/
structure JobResponse where
  job : Option JobFields
deriving DecidableEq, Repr

/-- `response.get('data', {}).get('job', {})`. -/
def jobStatusOf (r : JobResponse) : JobFields :=
  r.job.getD ⟨none, none, none⟩

/-- The dict returned by `wait_for_job` on completion. -/
structure JobOutcome where
  success : Bool
  result : String
  details : JobFields
  elapsed : Nat
deriving DecidableEq, Repr

/-- The `PanosException(JOB_TIMEOUT)` raised by `wait_for_job`, carrying the
job id and the elapsed time in its details. -/
def jobTimeoutExc (job_id : String) (timeout elapsed : Nat) : PanosException :=
  ⟨"Job " ++ job_id ++ " timed out after " ++ Nat.repr timeout ++ " seconds",
    some "JOB_TIMEOUT", [("job_id", .str job_id), ("elapsed", .nat elapsed)]⟩

/-- The `while True` loop of `wait_for_job`, over an explicit stream of
job-status responses. Time is idealized: the status fetches are instantaneous
and each `time.sleep(poll_interval)` advances the clock by exactly
`poll_interval`, so `elapsed` at the top of iteration `k` is
`k * poll_interval`. `none` means the finite modelling stream was exhausted
before the loop exited (the Python loop would keep polling). -/
def waitLoop (job_id : String) (timeout poll_interval : Nat) :
    Nat → List JobResponse → Option (Except PanosException JobOutcome)
  | elapsed, stream =>
    if timeout < elapsed then some (.error (jobTimeoutExc job_id timeout elapsed))
    else
      match stream with
      | [] => none
      | r :: rest =>
        let st := jobStatusOf r
        let job_result := st.result.getD "UNKNOWN"
        if st.status.getD "UNKNOWN" = "FIN" then
          some (.ok ⟨job_result == "OK", job_result, st, elapsed⟩)
        else waitLoop job_id timeout poll_interval (elapsed + poll_interval) rest

/-- `wait_for_job` from `panos_common.py` over a response stream, starting
with zero elapsed time. -/
def wait_for_job (job_id : String) (timeout poll_interval : Nat)
    (stream : List JobResponse) : Option (Except PanosException JobOutcome) :=
  waitLoop job_id timeout poll_interval 0 stream

/-- A Python runtime error hit by the embedded code (here only: calling
`.get` on a value that is not a dict, an `AttributeError`). -/
inductive PyError where
  | attributeError (method : String)
deriving DecidableEq, Repr

/-- Python `v.get(key, default)`: succeeds only when `v` is a dict;
on a string, a list or `None` it raises `AttributeError`. -/
def pyGet (v : JsonVal) (key : String) (dflt : JsonVal) : Except PyError JsonVal :=
  match v with
  | .obj fields => .ok ((alistLookup fields key).getD dflt)
  | _ => .error (.attributeError "get")

/-- Python truthiness `bool(v)` of a normalized value. -/
def pyTruthy : JsonVal → Bool
  | .null => false
  | .str s => s ≠ ""
  | .obj fields => !fields.isEmpty
  | .arr items => !items.isEmpty

/-- The dict returned by `extract_ha_info`. -/
structure HaSnapshot where
  enabled : Bool
  mode : JsonVal
  state : JsonVal
  peer_state : JsonVal
  running_sync : JsonVal
  running_sync_enabled : JsonVal
  preemptive : JsonVal
  priority : JsonVal
  peer_address : JsonVal
  raw : JsonVal

/-- `extract_ha_info` from `panos_common.py`: navigates
`data.group.local-info` / `data.group.peer-info` with `.get` defaults; each
`.get` raises `AttributeError` when the navigated value is not a dict,
exactly as in Python. -/
def extract_ha_info (ha_response : JsonVal) : Except PyError HaSnapshot := do
  let data ← pyGet ha_response "data" (.obj [])
  let group ← pyGet data "group" (.obj [])
  let local_info ← pyGet group "local-info" (.obj [])
  let peer_info ← pyGet group "peer-info" (.obj [])
  let mode ← pyGet local_info "mode" (.str "standalone")
  let state ← pyGet local_info "state" (.str "unknown")
  let peer_state ← pyGet peer_info "state" (.str "unknown")
  let running_sync ← pyGet local_info "running-sync" (.str "unknown")
  let running_sync_enabled ← pyGet local_info "running-sync-enabled" (.str "no")
  let preemptive ← pyGet local_info "preemptive" (.str "no")
  let priority ← pyGet local_info "priority" (.str "0")
  let peer_address ← pyGet peer_info "mgmt-ip" (.str "")
  pure ⟨pyTruthy group, mode, state, peer_state, running_sync,
    running_sync_enabled, preemptive, priority, peer_address, data⟩

example : xml_element_to_dict
    (.mk "result" [] (.cons (.mk "a" [] .nil (some "1"))
      (.cons (.mk "a" [] .nil (some "2")) .nil)) none)
    = JsonVal.obj [("a", JsonVal.arr [JsonVal.str "1", JsonVal.str "2"])] := rfl

/-! ## Helper lemmas about the version comparison -/

theorem compare_versions_of_parse {a b : String} {va vb : ParsedVersion}
    (ha : parse_panos_version a = some va) (hb : parse_panos_version b = some vb) :
    compare_versions a b = .ok (versionCmp va vb) := by
  simp [compare_versions, ha, hb]

theorem panos_version_compare_of_parse {a b : String} {va vb : ParsedVersion}
    (ha : parse_panos_version a = some va) (hb : parse_panos_version b = some vb) :
    panos_version_compare a b = some (versionCmp va vb) := by
  simp [panos_version_compare, ha, hb]

theorem versionCmp_antisymm (v w : ParsedVersion) :
    versionCmp v w = -versionCmp w v := by
  unfold versionCmp
  split_ifs <;> omega

theorem versionCmp_self (v : ParsedVersion) : versionCmp v v = 0 := by
  unfold versionCmp
  split_ifs <;> omega

theorem versionCmp_eq_zero_of_fields {v w : ParsedVersion}
    (h1 : v.major = w.major) (h2 : v.minor = w.minor)
    (h3 : v.patch = w.patch) (h4 : v.hotfix = w.hotfix) :
    versionCmp v w = 0 := by
  unfold versionCmp
  split_ifs <;> omega

/-- C4: for all version strings `a` and `b` that both parse, the comparison
is antisymmetric (`compare(a,b) = -compare(b,a)` under LESS=-1 / EQUAL=0 /
GREATER=1) and reflexively EQUAL (`compare(a,a) = 0`), for both the
filter-plugin comparator (`None`-returning) and the strict library
comparator (raising). -/
theorem compare_antisymm_refl (a b : String) (va vb : ParsedVersion)
    (ha : parse_panos_version a = some va) (hb : parse_panos_version b = some vb) :
    panos_version_compare a b = (panos_version_compare b a).map Neg.neg
    ∧ compare_versions a b = (compare_versions b a).map Neg.neg
    ∧ panos_version_compare a a = some 0
    ∧ compare_versions a a = .ok 0 := by
  refine ⟨?_, ?_, ?_, ?_⟩
  · rw [panos_version_compare_of_parse ha hb, panos_version_compare_of_parse hb ha]
    simp [versionCmp_antisymm va vb]
  · rw [compare_versions_of_parse ha hb, compare_versions_of_parse hb ha]
    simp [Except.map, versionCmp_antisymm va vb]
  · rw [panos_version_compare_of_parse ha ha, versionCmp_self]
  · rw [compare_versions_of_parse ha ha, versionCmp_self]

/-- Witness for C4 at the concrete pair `"10.1.0"`, `"10.2.3-h2"`. -/
theorem compare_antisymm_refl_witness :
    panos_version_compare "10.1.0" "10.2.3-h2"
      = (panos_version_compare "10.2.3-h2" "10.1.0").map Neg.neg
    ∧ compare_versions "10.1.0" "10.2.3-h2"
      = (compare_versions "10.2.3-h2" "10.1.0").map Neg.neg
    ∧ panos_version_compare "10.1.0" "10.1.0" = some 0
    ∧ compare_versions "10.1.0" "10.1.0" = .ok 0 :=
  compare_antisymm_refl "10.1.0" "10.2.3-h2"
    ⟨10, 1, 0, 0, 0, "10.1.0"⟩ ⟨10, 2, 3, 2, 0, "10.2.3-h2"⟩
    (by decide) (by decide)

/-- C5: the candidate component is parsed but excluded from ordering — two
versions equal on (major, minor, patch, hotfix) but with different candidate
numbers compare as EQUAL, in both comparators. -/
theorem compare_ignores_candidate (a b : String) (va vb : ParsedVersion)
    (ha : parse_panos_version a = some va) (hb : parse_panos_version b = some vb)
    (h1 : va.major = vb.major) (h2 : va.minor = vb.minor)
    (h3 : va.patch = vb.patch) (h4 : va.hotfix = vb.hotfix)
    (_h5 : va.candidate ≠ vb.candidate) :
    panos_version_compare a b = some 0 ∧ compare_versions a b = .ok 0 := by
  rw [panos_version_compare_of_parse ha hb, compare_versions_of_parse ha hb,
    versionCmp_eq_zero_of_fields h1 h2 h3 h4]
  exact ⟨rfl, rfl⟩

/-- Witness for C5 at `"10.2.9-c1"` versus `"10.2.9-c2"`. -/
theorem compare_ignores_candidate_witness :
    panos_version_compare "10.2.9-c1" "10.2.9-c2" = some 0
    ∧ compare_versions "10.2.9-c1" "10.2.9-c2" = .ok 0 :=
  compare_ignores_candidate "10.2.9-c1" "10.2.9-c2"
    ⟨10, 2, 9, 0, 1, "10.2.9-c1"⟩ ⟨10, 2, 9, 0, 2, "10.2.9-c2"⟩
    (by decide) (by decide) rfl rfl rfl rfl (by decide)

/-- C6: the predicate family fails closed — whenever either input fails to
parse every predicate returns `false` (and, being plain `Bool`-valued
functions, they never raise) — and `gte` is reflexive on parseable inputs;
including the spec's concrete examples. -/
theorem version_predicates_fail_closed :
    (∀ a b : String,
      parse_panos_version a = none ∨ parse_panos_version b = none →
      panos_version_gte a b = false ∧ panos_version_lte a b = false
      ∧ panos_version_gt a b = false ∧ panos_version_lt a b = false
      ∧ panos_version_eq a b = false)
    ∧ (∀ v : String, (parse_panos_version v).isSome → panos_version_gte v v = true)
    ∧ panos_version_gte "10.1.5" "10.1.5" = true
    ∧ panos_version_gte "bad" "10.1.0" = false := by
  refine ⟨?_, ?_, by decide, by decide⟩
  · intro a b h
    have hnone : panos_version_compare a b = none := by
      unfold panos_version_compare
      rcases h with h | h
      · rw [h]
      · rw [h]
        cases parse_panos_version a <;> rfl
    simp [panos_version_gte, panos_version_lte, panos_version_gt,
      panos_version_lt, panos_version_eq, hnone]
  · intro v hv
    rcases Option.isSome_iff_exists.mp hv with ⟨p, hp⟩
    simp [panos_version_gte, panos_version_compare_of_parse hp hp, versionCmp_self]

/-- Witness for C6: the fail-closed branch at `("bad", "10.1.0")` and the
reflexivity branch at `"10.1.5"`. -/
theorem version_predicates_fail_closed_witness :
    (panos_version_gte "bad" "10.1.0" = false
      ∧ panos_version_lte "bad" "10.1.0" = false
      ∧ panos_version_gt "bad" "10.1.0" = false
      ∧ panos_version_lt "bad" "10.1.0" = false
      ∧ panos_version_eq "bad" "10.1.0" = false)
    ∧ panos_version_gte "10.1.5" "10.1.5" = true :=
  ⟨version_predicates_fail_closed.1 "bad" "10.1.0" (Or.inl (by decide)),
    version_predicates_fail_closed.2.1 "10.1.5" (by decide)⟩

/-! ## Job polling (C3) -/

/-- The job status string the loop reads:
`status.get('status', 'UNKNOWN')`. -/
def jobStatusStr (r : JobResponse) : String :=
  (jobStatusOf r).status.getD "UNKNOWN"

/-- The job result string the loop reads:
`status.get('result', 'UNKNOWN')`. -/
def jobResultStr (r : JobResponse) : String :=
  (jobStatusOf r).result.getD "UNKNOWN"

theorem waitLoop_timeout (job_id : String) (timeout poll_interval elapsed : Nat)
    (stream : List JobResponse) (h : timeout < elapsed) :
    waitLoop job_id timeout poll_interval elapsed stream
      = some (.error (jobTimeoutExc job_id timeout elapsed)) := by
  cases stream <;> simp [waitLoop, h]

theorem waitLoop_fin (job_id : String) (timeout poll_interval elapsed : Nat)
    (r : JobResponse) (rest : List JobResponse)
    (hel : ¬ timeout < elapsed) (hfin : jobStatusStr r = "FIN") :
    waitLoop job_id timeout poll_interval elapsed (r :: rest)
      = some (.ok ⟨jobResultStr r == "OK", jobResultStr r, jobStatusOf r, elapsed⟩) := by
  simp [waitLoop, hel, jobStatusStr, jobResultStr] at hfin ⊢
  rw [hfin]
  simp

theorem waitLoop_no_fin_times_out (job_id : String) (timeout poll_interval : Nat) :
    ∀ (stream : List JobResponse) (elapsed : Nat),
      (∀ r ∈ stream, jobStatusStr r ≠ "FIN") →
      timeout < elapsed + stream.length * poll_interval →
      ∃ el, timeout < el ∧
        waitLoop job_id timeout poll_interval elapsed stream
          = some (.error (jobTimeoutExc job_id timeout el)) := by
  intro stream
  induction stream with
  | nil =>
    intro elapsed _ hlt
    simp at hlt
    exact ⟨elapsed, hlt, waitLoop_timeout _ _ _ _ _ hlt⟩
  | cons r rest ih =>
    intro elapsed hnf hlt
    by_cases hel : timeout < elapsed
    · exact ⟨elapsed, hel, waitLoop_timeout _ _ _ _ _ hel⟩
    · have hr : ¬ (jobStatusOf r).status.getD "UNKNOWN" = "FIN" := by
        simpa [jobStatusStr] using hnf r (List.mem_cons_self r rest)
      have step : waitLoop job_id timeout poll_interval elapsed (r :: rest)
          = waitLoop job_id timeout poll_interval (elapsed + poll_interval) rest := by
        simp [waitLoop, hel, hr]
      rw [step]
      refine ih (elapsed + poll_interval) (fun x hx => hnf x (List.mem_cons_of_mem r hx)) ?_
      rw [List.length_cons] at hlt
      have h2 : elapsed + (rest.length + 1) * poll_interval
          = elapsed + poll_interval + rest.length * poll_interval := by ring
      rw [h2] at hlt
      exact hlt

/-- C3: the loop of `wait_for_job` checks the timeout at the top of each
iteration and, when elapsed time exceeds `timeout`, raises
`PanosException(JOB_TIMEOUT)` carrying the job id and the elapsed time; a
fetched job whose status is the terminal marker `"FIN"` makes it return a
record whose `success` is true exactly when the job result is `"OK"`; the
concrete stream PEND, PEND, FIN/OK yields `{success := true, result := "OK"}`;
and any stream that never reaches `"FIN"` within the timeout budget ends in
`JOB_TIMEOUT`. Time is idealized as `poll_interval` per iteration. -/
theorem wait_for_job_correct :
    (∀ (job_id : String) (timeout poll_interval elapsed : Nat)
        (stream : List JobResponse),
      timeout < elapsed →
      waitLoop job_id timeout poll_interval elapsed stream
        = some (.error (jobTimeoutExc job_id timeout elapsed))
      ∧ (jobTimeoutExc job_id timeout elapsed).error_code = some "JOB_TIMEOUT"
      ∧ ("job_id", .str job_id) ∈ (jobTimeoutExc job_id timeout elapsed).details
      ∧ ("elapsed", .nat elapsed) ∈ (jobTimeoutExc job_id timeout elapsed).details)
    ∧ (∀ (job_id : String) (timeout poll_interval elapsed : Nat)
        (r : JobResponse) (rest : List JobResponse),
      ¬ timeout < elapsed → jobStatusStr r = "FIN" →
      waitLoop job_id timeout poll_interval elapsed (r :: rest)
        = some (.ok ⟨jobResultStr r == "OK", jobResultStr r, jobStatusOf r, elapsed⟩))
    ∧ wait_for_job "42" 1800 30
        [⟨some ⟨some "PEND", none, some "10"⟩⟩,
         ⟨some ⟨some "PEND", none, some "60"⟩⟩,
         ⟨some ⟨some "FIN", some "OK", some "100"⟩⟩]
        = some (.ok ⟨true, "OK", ⟨some "FIN", some "OK", some "100"⟩, 60⟩)
    ∧ (∀ (job_id : String) (timeout poll_interval : Nat)
        (stream : List JobResponse),
      (∀ r ∈ stream, jobStatusStr r ≠ "FIN") →
      timeout < stream.length * poll_interval →
      ∃ el, timeout < el ∧
        wait_for_job job_id timeout poll_interval stream
          = some (.error (jobTimeoutExc job_id timeout el))) := by
  refine ⟨?_, ?_, rfl, ?_⟩
  · intro job_id timeout poll_interval elapsed stream h
    exact ⟨waitLoop_timeout job_id timeout poll_interval elapsed stream h,
      rfl, by simp [jobTimeoutExc], by simp [jobTimeoutExc]⟩
  · intro job_id timeout poll_interval elapsed r rest hel hfin
    exact waitLoop_fin job_id timeout poll_interval elapsed r rest hel hfin
  · intro job_id timeout poll_interval stream hnf hlt
    exact waitLoop_no_fin_times_out job_id timeout poll_interval stream 0 hnf
      (by simpa using hlt)

/-- Witness for C3: the timeout branch at elapsed 31 > timeout 30, the FIN
branch on a concrete response, and the no-FIN branch on a two-PEND stream
with timeout 50 and poll interval 30. -/
theorem wait_for_job_correct_witness :
    (waitLoop "7" 30 30 31 [] = some (.error (jobTimeoutExc "7" 30 31))
      ∧ (jobTimeoutExc "7" 30 31).error_code = some "JOB_TIMEOUT"
      ∧ ("job_id", .str "7") ∈ (jobTimeoutExc "7" 30 31).details
      ∧ ("elapsed", .nat 31) ∈ (jobTimeoutExc "7" 30 31).details)
    ∧ waitLoop "7" 1800 30 0 [⟨some ⟨some "FIN", some "FAIL", none⟩⟩]
        = some (.ok ⟨("FAIL" == "OK"), "FAIL", ⟨some "FIN", some "FAIL", none⟩, 0⟩)
    ∧ (∃ el, 50 < el ∧
        wait_for_job "7" 50 30
          [⟨some ⟨some "PEND", none, none⟩⟩, ⟨some ⟨some "PEND", none, none⟩⟩]
          = some (.error (jobTimeoutExc "7" 50 el))) :=
  ⟨wait_for_job_correct.1 "7" 30 30 31 [] (by decide),
    wait_for_job_correct.2.1 "7" 1800 30 0 ⟨some ⟨some "FIN", some "FAIL", none⟩⟩ []
      (by decide) (by decide),
    wait_for_job_correct.2.2.2 "7" 50 30
      [⟨some ⟨some "PEND", none, none⟩⟩, ⟨some ⟨some "PEND", none, none⟩⟩]
      (by decide) (by decide)⟩

/-! ## HA state extraction (C7) -/

/-- Counterexample to C7 as stated: `extract_ha_info` is not total on
normalized HA responses — on `{'data': None}` (exactly what
`parse_xml_response` produces for `<response status="success"><result/>
</response>`, whose empty `<result>` normalizes to `None`) the Python code
crashes with `AttributeError` at `data.get('group', {})`; and the
documented fallback for the boolean-like `running_sync` field is the string
`"unknown"`, not `"no"` as the claim states, as the no-group response
`{'data': {}}` shows. -/
theorem extract_ha_info_counterexample :
    extract_ha_info (.obj [("data", .null)])
      = .error (.attributeError "get")
    ∧ extract_ha_info (.obj [("data", .obj [])])
      = .ok ⟨false, .str "standalone", .str "unknown", .str "unknown",
          .str "unknown", .str "no", .str "no", .str "0", .str "", .obj []⟩
    ∧ JsonVal.str "unknown" ≠ JsonVal.str "no" :=
  ⟨rfl, rfl, by simp⟩

/-- C7 (amended): `extract_ha_info` never fails provided every navigated
substructure (`data`, `data.group`, `group.local-info`, `group.peer-info`)
is either absent or a map; then `enabled` is true iff the group map is
present and non-empty, and each missing path takes its source fallback:
`mode` → "standalone", `state`/`peer_state` → "unknown",
`running_sync` → "unknown", `running_sync_enabled`/`preemptive` → "no",
`priority` → "0", `peer_address` → "". -/
theorem extract_ha_info_amended (rs ds gs lis pis : List (String × JsonVal))
    (hd : alistLookup rs "data" = some (.obj ds)
      ∨ (alistLookup rs "data" = none ∧ ds = []))
    (hg : alistLookup ds "group" = some (.obj gs)
      ∨ (alistLookup ds "group" = none ∧ gs = []))
    (hl : alistLookup gs "local-info" = some (.obj lis)
      ∨ (alistLookup gs "local-info" = none ∧ lis = []))
    (hp : alistLookup gs "peer-info" = some (.obj pis)
      ∨ (alistLookup gs "peer-info" = none ∧ pis = [])) :
    extract_ha_info (.obj rs) = .ok ⟨!gs.isEmpty,
      (alistLookup lis "mode").getD (.str "standalone"),
      (alistLookup lis "state").getD (.str "unknown"),
      (alistLookup pis "state").getD (.str "unknown"),
      (alistLookup lis "running-sync").getD (.str "unknown"),
      (alistLookup lis "running-sync-enabled").getD (.str "no"),
      (alistLookup lis "preemptive").getD (.str "no"),
      (alistLookup lis "priority").getD (.str "0"),
      (alistLookup pis "mgmt-ip").getD (.str ""),
      .obj ds⟩ := by
  rcases hd with hd | ⟨hd, rfl⟩ <;> rcases hg with hg | ⟨hg, rfl⟩ <;>
    rcases hl with hl | ⟨hl, rfl⟩ <;> rcases hp with hp | ⟨hp, rfl⟩ <;>
    simp [extract_ha_info, pyGet, pyTruthy, hd, hg, hl, hp, bind, Except.bind,
      pure, Except.pure]

/-- Witness for C7 (amended) on a populated two-node HA response. -/
theorem extract_ha_info_amended_witness :
    extract_ha_info (.obj [("data", .obj [("group", .obj
        [("local-info", .obj [("state", .str "active"), ("priority", .str "100")]),
         ("peer-info", .obj [("state", .str "passive")])])])])
      = .ok ⟨true, .str "standalone", .str "active", .str "passive",
          .str "unknown", .str "no", .str "no", .str "100", .str "",
          .obj [("group", .obj
            [("local-info", .obj [("state", .str "active"), ("priority", .str "100")]),
             ("peer-info", .obj [("state", .str "passive")])])]⟩ :=
  extract_ha_info_amended
    [("data", .obj [("group", .obj
        [("local-info", .obj [("state", .str "active"), ("priority", .str "100")]),
         ("peer-info", .obj [("state", .str "passive")])])])]
    [("group", .obj
        [("local-info", .obj [("state", .str "active"), ("priority", .str "100")]),
         ("peer-info", .obj [("state", .str "passive")])])]
    [("local-info", .obj [("state", .str "active"), ("priority", .str "100")]),
     ("peer-info", .obj [("state", .str "passive")])]
    [("state", .str "active"), ("priority", .str "100")]
    [("state", .str "passive")]
    (Or.inl rfl) (Or.inl rfl) (Or.inl rfl) (Or.inl rfl)

/-! ## Association-list lemmas for the XML normalization (C2) -/

theorem alistLookup_setKey_self (d : List (String × JsonVal)) (key : String)
    (v : JsonVal) : alistLookup (setKey d key v) key = some v := by
  induction d with
  | nil => simp [setKey, alistLookup]
  | cons p rest ih =>
    obtain ⟨k, w⟩ := p
    by_cases h : k = key
    · simp [setKey, alistLookup, h]
    · simp [setKey, alistLookup, h, ih]

theorem alistLookup_setKey_ne (d : List (String × JsonVal)) {key k : String}
    (v : JsonVal) (h : k ≠ key) :
    alistLookup (setKey d key v) k = alistLookup d k := by
  induction d with
  | nil =>
    have hk : key ≠ k := Ne.symm h
    show alistLookup [(key, v)] k = none
    simp [alistLookup, hk]
  | cons p rest ih =>
    obtain ⟨k2, w⟩ := p
    by_cases h2 : k2 = key
    · subst h2
      have hk2 : ¬ k2 = k := fun hh => h (Eq.symm hh)
      rw [show setKey ((k2, w) :: rest) k2 v = (k2, v) :: rest from by simp [setKey]]
      simp [alistLookup, hk2]
    · rw [show setKey ((k2, w) :: rest) key v = (k2, w) :: setKey rest key v from by
        simp [setKey, h2]]
      by_cases h3 : k2 = k
      · simp [alistLookup, h3]
      · simp [alistLookup, h3, ih]

theorem setKey_ne_nil (d : List (String × JsonVal)) (key : String) (v : JsonVal) :
    setKey d key v ≠ [] := by
  cases d with
  | nil => simp [setKey]
  | cons p rest =>
    obtain ⟨k, w⟩ := p
    by_cases h : k = key <;> simp [setKey, h]

theorem alistLookup_append (d1 d2 : List (String × JsonVal)) (k : String) :
    alistLookup (d1 ++ d2) k =
      match alistLookup d1 k with
      | some v => some v
      | none => alistLookup d2 k := by
  induction d1 with
  | nil => simp [alistLookup]
  | cons p rest ih =>
    obtain ⟨k1, w⟩ := p
    by_cases h : k1 = k <;> simp [alistLookup, h, ih]

theorem alistLookup_eq_none (d : List (String × JsonVal)) (k : String)
    (h : ∀ p ∈ d, p.1 ≠ k) : alistLookup d k = none := by
  induction d with
  | nil => rfl
  | cons p rest ih =>
    obtain ⟨k1, w⟩ := p
    have h1 : k1 ≠ k := h (k1, w) (List.mem_cons_self _ _)
    simp [alistLookup, h1]
    exact ih (fun q hq => h q (List.mem_cons_of_mem _ hq))

theorem mem_setKey (d : List (String × JsonVal)) (key : String) (v : JsonVal)
    (p : String × JsonVal) (h : p ∈ setKey d key v) : p.1 = key ∨ p ∈ d := by
  induction d with
  | nil =>
    simp [setKey] at h
    simp [h]
  | cons q rest ih =>
    obtain ⟨k1, w⟩ := q
    by_cases h1 : k1 = key
    · simp [setKey, h1] at h
      rcases h with h | h
      · exact Or.inl (by simp [h, h1])
      · exact Or.inr (List.mem_cons_of_mem _ h)
    · simp [setKey, h1] at h
      rcases h with h | h
      · exact Or.inr (by simp [h])
      · rcases ih h with h2 | h2
        · exact Or.inl h2
        · exact Or.inr (List.mem_cons_of_mem _ h2)

theorem setKey_of_absent (d : List (String × JsonVal)) (key : String)
    (v : JsonVal) (h : ∀ p ∈ d, p.1 ≠ key) : setKey d key v = d ++ [(key, v)] := by
  induction d with
  | nil => rfl
  | cons p rest ih =>
    obtain ⟨k1, w⟩ := p
    have h1 : k1 ≠ key := h (k1, w) (List.mem_cons_self _ _)
    simp [setKey, h1]
    exact ih (fun q hq => h q (List.mem_cons_of_mem _ hq))

theorem keys_setKey_of_present (d : List (String × JsonVal)) (key : String)
    (v w : JsonVal) (h : alistLookup d key = some w) :
    (setKey d key v).map Prod.fst = d.map Prod.fst := by
  induction d with
  | nil => simp [alistLookup] at h
  | cons p rest ih =>
    obtain ⟨k1, w1⟩ := p
    by_cases h1 : k1 = key
    · simp [setKey, h1]
    · simp [alistLookup, h1] at h
      simp [setKey, h1, ih h]

theorem dictUpdate_ne_nil (base upd : List (String × JsonVal))
    (h : base ≠ [] ∨ upd ≠ []) : dictUpdate base upd ≠ [] := by
  induction upd generalizing base with
  | nil =>
    rcases h with h | h
    · exact h
    · exact absurd rfl h
  | cons p ps ih =>
    show dictUpdate (setKey base p.1 p.2) ps ≠ []
    exact ih (setKey base p.1 p.2) (Or.inl (setKey_ne_nil _ _ _))

theorem alistLookup_dictUpdate_absent_upd (base upd : List (String × JsonVal))
    (k : String) (h : ∀ p ∈ upd, p.1 ≠ k) :
    alistLookup (dictUpdate base upd) k = alistLookup base k := by
  induction upd generalizing base with
  | nil => rfl
  | cons p ps ih =>
    show alistLookup (dictUpdate (setKey base p.1 p.2) ps) k = _
    rw [ih (setKey base p.1 p.2) (fun q hq => h q (List.mem_cons_of_mem _ hq))]
    exact alistLookup_setKey_ne base p.2 (Ne.symm (h p (List.mem_cons_self _ _)))

theorem alistLookup_dictUpdate_absent_base (base upd : List (String × JsonVal))
    (k : String) (hbase : ∀ p ∈ base, p.1 ≠ k)
    (hnodup : (upd.map Prod.fst).Nodup) :
    alistLookup (dictUpdate base upd) k = alistLookup upd k := by
  induction upd generalizing base with
  | nil =>
    show alistLookup base k = alistLookup [] k
    rw [alistLookup_eq_none base k hbase]
    rfl
  | cons p ps ih =>
    obtain ⟨k2, v2⟩ := p
    show alistLookup (dictUpdate (setKey base k2 v2) ps) k = _
    by_cases hk : k2 = k
    · subst hk
      rw [setKey_of_absent base k2 v2 hbase]
      have hps : ∀ p ∈ ps, p.1 ≠ k2 := by
        intro p hp
        have : k2 ∉ ps.map Prod.fst := by
          simpa using (List.nodup_cons.mp hnodup).1
        intro hh
        exact this (hh ▸ List.mem_map_of_mem Prod.fst hp)
      rw [alistLookup_dictUpdate_absent_upd _ ps k2 hps, alistLookup_append]
      rw [alistLookup_eq_none base k2 hbase]
      simp [alistLookup]
    · have hbase2 : ∀ p ∈ setKey base k2 v2, p.1 ≠ k := by
        intro p hp
        rcases mem_setKey base k2 v2 p hp with h | h
        · rw [h]; exact hk
        · exact hbase p h
      rw [ih (setKey base k2 v2) hbase2 (List.nodup_cons.mp hnodup).2]
      simp [alistLookup, hk]

/-! ## The child-grouping loop of `xml_element_to_dict` -/

/-- What one more same-tag value does to a slot: a first value is stored
directly, a later value appends to the (possibly just-created) list. -/
def mergeOne : Option JsonVal → JsonVal → JsonVal
  | none, v => v
  | some w, v => .arr (toListVals w ++ [v])

/-- The final slot content for a tag seen with the given values:
nothing, the single value, or the list of values in order. -/
def collapse : List JsonVal → Option JsonVal
  | [] => none
  | [v] => some v
  | v :: vs => some (.arr (v :: vs))

/-- `collapse` after an already-present slot value. -/
def extendVals : Option JsonVal → List JsonVal → Option JsonVal
  | none, vs => collapse vs
  | some w, [] => some w
  | some w, vs => some (.arr (toListVals w ++ vs))

theorem alistLookup_addChild_self (d : List (String × JsonVal)) (k : String)
    (v : JsonVal) :
    alistLookup (addChild d k v) k = some (mergeOne (alistLookup d k) v) := by
  unfold addChild
  cases h : alistLookup d k with
  | none =>
    rw [alistLookup_append, h]
    simp [alistLookup, mergeOne]
  | some w =>
    rw [alistLookup_setKey_self]
    rfl

theorem alistLookup_addChild_ne (d : List (String × JsonVal)) {k t : String}
    (v : JsonVal) (h : t ≠ k) :
    alistLookup (addChild d k v) t = alistLookup d t := by
  unfold addChild
  cases hk : alistLookup d k with
  | none =>
    rw [alistLookup_append]
    cases ht : alistLookup d t with
    | none => simp [alistLookup, Ne.symm h]
    | some w => rfl
  | some w => exact alistLookup_setKey_ne d _ h

theorem mem_addChild (d : List (String × JsonVal)) (k : String) (v : JsonVal)
    (p : String × JsonVal) (h : p ∈ addChild d k v) : p.1 = k ∨ p ∈ d := by
  unfold addChild at h
  cases hk : alistLookup d k with
  | none =>
    rw [hk] at h
    rcases List.mem_append.mp h with h | h
    · exact Or.inr h
    · simp at h
      simp [h]
  | some w =>
    rw [hk] at h
    exact mem_setKey d k _ p h

theorem extendVals_nil (o : Option JsonVal) : extendVals o [] = o := by
  cases o <;> rfl

theorem extendVals_merge (o : Option JsonVal) (v : JsonVal) (vs : List JsonVal)
    (hv : v.isArr = false) :
    extendVals (some (mergeOne o v)) vs = extendVals o (v :: vs) := by
  cases o with
  | none =>
    have htl : toListVals v = [v] := by
      cases v <;> simp_all [toListVals, JsonVal.isArr]
    cases vs with
    | nil => simp [mergeOne, extendVals, collapse]
    | cons v2 rest => simp [mergeOne, extendVals, collapse, htl]
  | some w =>
    cases vs with
    | nil => simp [mergeOne, extendVals, toListVals]
    | cons v2 rest => simp [mergeOne, extendVals, toListVals]

theorem alistLookup_foldl_addChild (t : String) :
    ∀ (ps : List (String × JsonVal)) (d : List (String × JsonVal)),
    (∀ p ∈ ps, (p.2 : JsonVal).isArr = false) →
    alistLookup (ps.foldl (fun d p => addChild d p.1 p.2) d) t
      = extendVals (alistLookup d t)
          ((ps.filter (fun p => p.1 = t)).map Prod.snd) := by
  intro ps
  induction ps with
  | nil =>
    intro d _
    simp [extendVals_nil]
  | cons p ps ih =>
    intro d hv
    obtain ⟨k, v⟩ := p
    have hv0 : JsonVal.isArr v = false := hv (k, v) (List.mem_cons_self _ _)
    have hvs : ∀ q ∈ ps, (q.2 : JsonVal).isArr = false :=
      fun q hq => hv q (List.mem_cons_of_mem _ hq)
    show alistLookup (ps.foldl (fun d p => addChild d p.1 p.2) (addChild d k v)) t = _
    rw [ih (addChild d k v) hvs]
    by_cases hk : k = t
    · subst hk
      rw [alistLookup_addChild_self d k v]
      rw [extendVals_merge (alistLookup d k) v _ hv0]
      simp
    · rw [alistLookup_addChild_ne d v (Ne.symm hk)]
      simp [hk]

theorem alistLookup_childFold (ps : List (String × JsonVal)) (t : String)
    (hv : ∀ p ∈ ps, (p.2 : JsonVal).isArr = false) :
    alistLookup (childFold ps) t
      = collapse ((ps.filter (fun p => p.1 = t)).map Prod.snd) := by
  unfold childFold
  rw [alistLookup_foldl_addChild t ps [] hv]
  rfl

theorem mem_childFold_keys :
    ∀ (ps : List (String × JsonVal)) (d : List (String × JsonVal))
      (q : String × JsonVal),
    q ∈ ps.foldl (fun d p => addChild d p.1 p.2) d →
    q.1 ∈ d.map Prod.fst ∨ q.1 ∈ ps.map Prod.fst := by
  intro ps
  induction ps with
  | nil =>
    intro d q hq
    exact Or.inl (List.mem_map_of_mem Prod.fst hq)
  | cons p ps ih =>
    intro d q hq
    rcases ih (addChild d p.1 p.2) q hq with h | h
    · rcases List.mem_map.mp h with ⟨r, hr, hr1⟩
      rcases mem_addChild d p.1 p.2 r hr with h2 | h2
      · exact Or.inr (by simp [← hr1, h2])
      · exact Or.inl (hr1 ▸ List.mem_map_of_mem Prod.fst h2)
    · exact Or.inr (List.mem_cons_of_mem _ h)

theorem keys_addChild_absent (d : List (String × JsonVal)) (k : String)
    (v : JsonVal) (h : alistLookup d k = none) :
    (addChild d k v).map Prod.fst = d.map Prod.fst ++ [k] := by
  unfold addChild
  rw [h]
  simp

theorem keys_addChild_present (d : List (String × JsonVal)) (k : String)
    (v w : JsonVal) (h : alistLookup d k = some w) :
    (addChild d k v).map Prod.fst = d.map Prod.fst := by
  unfold addChild
  rw [h]
  exact keys_setKey_of_present d k _ w h

theorem not_mem_keys_of_lookup_none (d : List (String × JsonVal)) (k : String)
    (h : alistLookup d k = none) : k ∉ d.map Prod.fst := by
  induction d with
  | nil => simp
  | cons q rest ih =>
    obtain ⟨k1, w⟩ := q
    by_cases h1 : k1 = k
    · simp [alistLookup, h1] at h
    · simp [alistLookup, h1] at h
      intro hmem
      simp only [List.map_cons] at hmem
      rcases List.mem_cons.mp hmem with h2 | h2
      · exact h1 h2.symm
      · exact ih h h2

theorem childFold_keys_nodup :
    ∀ (ps : List (String × JsonVal)) (d : List (String × JsonVal)),
    (d.map Prod.fst).Nodup →
    ((ps.foldl (fun d p => addChild d p.1 p.2) d).map Prod.fst).Nodup := by
  intro ps
  induction ps with
  | nil => intro d hd; exact hd
  | cons p ps ih =>
    intro d hd
    refine ih (addChild d p.1 p.2) ?_
    cases hk : alistLookup d p.1 with
    | none =>
      rw [keys_addChild_absent d p.1 p.2 hk]
      have := not_mem_keys_of_lookup_none d p.1 hk
      simp [List.nodup_append, hd, this]
    | some w =>
      rw [keys_addChild_present d p.1 p.2 w hk]
      exact hd

/-! ## Shape lemmas for `xml_element_to_dict` (C2) -/

/-- The `"@attributes"` value of an element: its attribute dict with string
values. -/
def attrsVal (attrs : List (String × String)) : JsonVal :=
  .obj (attrs.map (fun p => (p.1, .str p.2)))

/-- The tail of `xml_element_to_dict` after the children are grouped: merge
the attribute entry with the child dict, then place the stripped text. -/
def xedAssemble (base cd : List (String × JsonVal)) (t : String) : JsonVal :=
  let result := dictUpdate base cd
  if t = "" then
    if result.isEmpty then .null else .obj result
  else
    if result.isEmpty then .str t else .obj (setKey result "#text" (.str t))

theorem xml_element_to_dict_eq (tag : String) (attrs : List (String × String))
    (cs : XmlForest) (tx : Option String) :
    xml_element_to_dict (.mk tag attrs cs tx)
      = xedAssemble (if attrs.isEmpty then [] else [("@attributes", attrsVal attrs)])
          (childFold (childPairs cs)) ⟨pyStrip (tx.getD "").data⟩ := rfl

theorem isEmpty_false_of_ne_nil {l : List (String × JsonVal)} (h : l ≠ []) :
    l.isEmpty = false := by
  cases l with
  | nil => exact absurd rfl h
  | cons a l => rfl

theorem xedAssemble_obj (base cd : List (String × JsonVal)) (t : String)
    (k : String) (v : JsonVal)
    (hk : alistLookup (dictUpdate base cd) k = some v) (hkt : k ≠ "#text") :
    ∃ fields, xedAssemble base cd t = .obj fields
      ∧ alistLookup fields k = some v := by
  have hres : dictUpdate base cd ≠ [] := by
    intro hh
    rw [hh] at hk
    cases hk
  unfold xedAssemble
  by_cases ht : t = ""
  · exact ⟨dictUpdate base cd, by simp [ht, isEmpty_false_of_ne_nil hres], hk⟩
  · refine ⟨setKey (dictUpdate base cd) "#text" (.str t), ?_, ?_⟩
    · simp [ht, isEmpty_false_of_ne_nil hres]
    · rw [alistLookup_setKey_ne _ _ hkt]
      exact hk

theorem xedAssemble_not_arr (base cd : List (String × JsonVal)) (t : String) :
    (xedAssemble base cd t).isArr = false := by
  unfold xedAssemble
  by_cases ht : t = "" <;> cases hres : (dictUpdate base cd).isEmpty <;>
    simp [ht, hres, JsonVal.isArr]

theorem xml_element_to_dict_not_arr :
    ∀ e : XmlElem, (xml_element_to_dict e).isArr = false
  | .mk tag attrs cs tx => by
    rw [xml_element_to_dict_eq]
    exact xedAssemble_not_arr _ _ _

theorem childPairs_vals_not_arr :
    ∀ cs : XmlForest, ∀ p ∈ childPairs cs, (p.2 : JsonVal).isArr = false
  | .nil => by intro p hp; cases hp
  | .cons c rest => by
    intro p hp
    rcases List.mem_cons.mp hp with h | h
    · rw [h]
      exact xml_element_to_dict_not_arr c
    · exact childPairs_vals_not_arr rest p h

theorem keys_childPairs :
    ∀ cs : XmlForest,
      (childPairs cs).map Prod.fst = (XmlForest.toList cs).map XmlElem.tag
  | .nil => rfl
  | .cons c rest => by
    simp [childPairs, XmlForest.toList, keys_childPairs rest]

theorem filter_childPairs (t : String) :
    ∀ cs : XmlForest,
      (((childPairs cs).filter (fun p => p.1 = t)).map Prod.snd)
        = ((XmlForest.toList cs).filter (fun c => c.tag = t)).map xml_element_to_dict
  | .nil => rfl
  | .cons c rest => by
    by_cases h : c.tag = t <;>
      simp [childPairs, XmlForest.toList, List.filter, h, filter_childPairs t rest]

theorem collapse_of_two (vs : List JsonVal) (h : 2 ≤ vs.length) :
    collapse vs = some (.arr vs) := by
  match vs with
  | [] => simp at h
  | [v] => simp at h
  | v1 :: v2 :: rest => rfl

/-- C2 part helper: the `"@attributes"` binding survives to the output map
when the element has attributes and no child is tagged `"@attributes"`. -/
theorem xml_attrs_binding (tag : String) (attrs : List (String × String))
    (cs : XmlForest) (tx : Option String) (hne : attrs ≠ [])
    (hch : ∀ c ∈ XmlForest.toList cs, c.tag ≠ "@attributes") :
    ∃ fields, xml_element_to_dict (.mk tag attrs cs tx) = .obj fields
      ∧ alistLookup fields "@attributes" = some (attrsVal attrs) := by
  rw [xml_element_to_dict_eq]
  have hbase : (if attrs.isEmpty then ([] : List (String × JsonVal))
      else [("@attributes", attrsVal attrs)]) = [("@attributes", attrsVal attrs)] := by
    rw [if_neg]
    intro hh
    exact hne (List.isEmpty_iff.mp hh)
  rw [hbase]
  refine xedAssemble_obj _ _ _ _ _ ?_ (by decide)
  rw [alistLookup_dictUpdate_absent_upd _ _ _ ?_]
  · simp [alistLookup]
  · intro p hp
    rcases mem_childFold_keys (childPairs cs) [] p hp with h | h
    · simp at h
    · rw [keys_childPairs] at h
      rcases List.mem_map.mp h with ⟨c, hc, hc1⟩
      rw [← hc1]
      exact hch c hc

/-- C2 part helper: a tag occurring at least twice among the children comes
out as the ordered list of the children's values in document order. -/
theorem xml_repeated_children (tag : String) (attrs : List (String × String))
    (cs : XmlForest) (tx : Option String) (t : String)
    (hta : t ≠ "@attributes") (htt : t ≠ "#text")
    (h2 : 2 ≤ ((XmlForest.toList cs).filter (fun c => c.tag = t)).length) :
    ∃ fields, xml_element_to_dict (.mk tag attrs cs tx) = .obj fields
      ∧ alistLookup fields t = some (.arr
          (((XmlForest.toList cs).filter (fun c => c.tag = t)).map
            xml_element_to_dict)) := by
  rw [xml_element_to_dict_eq]
  refine xedAssemble_obj _ _ _ _ _ ?_ htt
  rw [alistLookup_dictUpdate_absent_base _ _ _ ?_ ?_]
  · rw [alistLookup_childFold _ _ (childPairs_vals_not_arr cs), filter_childPairs]
    refine collapse_of_two _ ?_
    rw [List.length_map]
    exact h2
  · intro p hp
    split at hp
    · cases hp
    · simp at hp
      subst hp
      exact Ne.symm hta
  · exact childFold_keys_nodup (childPairs cs) [] (by simp)

/-- C2: the recursive XML normalization — an element with attributes yields
a map binding `"@attributes"` to the attribute map; repeated same-tag
children yield an ordered list in document order (with the claim's
`<result><a>1</a><a>2</a></result>` example normalizing `a` to ["1", "2"]);
an element with only text collapses to the stripped text string; and an
element with no attributes, no children and no (non-whitespace) text
normalizes to `None`. -/
theorem xml_normalization_correct :
    (∀ (tag : String) (attrs : List (String × String)) (cs : XmlForest)
        (tx : Option String),
      attrs ≠ [] → (∀ c ∈ XmlForest.toList cs, c.tag ≠ "@attributes") →
      ∃ fields, xml_element_to_dict (.mk tag attrs cs tx) = .obj fields
        ∧ alistLookup fields "@attributes" = some (attrsVal attrs))
    ∧ (∀ (tag : String) (attrs : List (String × String)) (cs : XmlForest)
        (tx : Option String) (t : String),
      t ≠ "@attributes" → t ≠ "#text" →
      2 ≤ ((XmlForest.toList cs).filter (fun c => c.tag = t)).length →
      ∃ fields, xml_element_to_dict (.mk tag attrs cs tx) = .obj fields
        ∧ alistLookup fields t = some (.arr
            (((XmlForest.toList cs).filter (fun c => c.tag = t)).map
              xml_element_to_dict)))
    ∧ xml_element_to_dict (.mk "result" []
        (.cons (.mk "a" [] .nil (some "1"))
          (.cons (.mk "a" [] .nil (some "2")) .nil)) none)
      = .obj [("a", .arr [.str "1", .str "2"])]
    ∧ (∀ (tag : String) (s : String),
      (⟨pyStrip s.data⟩ : String) ≠ "" →
      xml_element_to_dict (.mk tag [] .nil (some s)) = .str ⟨pyStrip s.data⟩)
    ∧ (∀ (tag : String) (tx : Option String),
      (⟨pyStrip (tx.getD "").data⟩ : String) = "" →
      xml_element_to_dict (.mk tag [] .nil tx) = .null) := by
  refine ⟨xml_attrs_binding, xml_repeated_children, rfl, ?_, ?_⟩
  · intro tag s h
    rw [xml_element_to_dict_eq]
    unfold xedAssemble
    simp [h]
    rfl
  · intro tag tx h
    rw [xml_element_to_dict_eq]
    unfold xedAssemble
    simp [h]
    rfl

/-- Witness for C2: each universally quantified part applied at a concrete
element — an attributed element, a two-`<a>` element, a text leaf, and an
empty leaf. -/
theorem xml_normalization_correct_witness :
    (∃ fields, xml_element_to_dict (.mk "entry" [("name", "fw01")]
        (.cons (.mk "serial" [] .nil (some "111")) .nil) none) = .obj fields
      ∧ alistLookup fields "@attributes" = some (attrsVal [("name", "fw01")]))
    ∧ (∃ fields, xml_element_to_dict (.mk "result" []
        (.cons (.mk "a" [] .nil (some "1"))
          (.cons (.mk "a" [] .nil (some "2")) .nil)) none) = .obj fields
      ∧ alistLookup fields "a" = some (.arr
          (((XmlForest.toList (.cons (.mk "a" [] .nil (some "1"))
            (.cons (.mk "a" [] .nil (some "2")) .nil))).filter
              (fun c => c.tag = "a")).map xml_element_to_dict)))
    ∧ xml_element_to_dict (.mk "line" [] .nil (some " ok "))
        = .str ⟨pyStrip (" ok " : String).data⟩
    ∧ xml_element_to_dict (.mk "result" [] .nil (some "  ")) = .null :=
  ⟨xml_normalization_correct.1 "entry" [("name", "fw01")]
      (.cons (.mk "serial" [] .nil (some "111")) .nil) none
      (by simp) (by decide),
    xml_normalization_correct.2.1 "result" []
      (.cons (.mk "a" [] .nil (some "1"))
        (.cons (.mk "a" [] .nil (some "2")) .nil)) none "a"
      (by decide) (by decide) (by decide),
    xml_normalization_correct.2.2.2.1 "line" " ok " (by decide),
    xml_normalization_correct.2.2.2.2 "result" (some "  ") (by decide)⟩

/-! ## Response parsing (C8) -/

/-- C8: `parse_xml_response` raises `PanosException(XML_PARSE_ERROR)` exactly
when the underlying XML parser (`fromstring`, the external `ET.fromstring`
collaborator, quantified here) rejects the text, and the raised error carries
the offending payload truncated to at most 500 characters; on accepted input
it returns a normalized record whose `success` field is the exact
case-sensitive string equality `status == "success"`. -/
theorem parse_xml_response_correct :
    ∀ (fromstring : String → Except String XmlElem) (s : String),
      (∀ em, fromstring s = .error em →
        parse_xml_response fromstring s = .error
          ⟨"Failed to parse XML response: " ++ em, some "XML_PARSE_ERROR",
            [("raw_response", .str ⟨s.data.take 500⟩)]⟩
        ∧ (String.mk (s.data.take 500)).length ≤ 500)
      ∧ (∀ e, parse_xml_response fromstring s = .error e →
        (∃ em, fromstring s = .error em) ∧ e.error_code = some "XML_PARSE_ERROR")
      ∧ (∀ root, fromstring s = .ok root →
        ∃ r, parse_xml_response fromstring s = .ok r
          ∧ r.success = ((xmlAttr root "status").getD "unknown" == "success")
          ∧ r.status = (xmlAttr root "status").getD "unknown") := by
  intro fromstring s
  refine ⟨?_, ?_, ?_⟩
  · intro em hem
    refine ⟨by simp [parse_xml_response, hem], ?_⟩
    show (s.data.take 500).length ≤ 500
    rw [List.length_take]
    exact min_le_left _ _
  · intro e he
    cases h : fromstring s with
    | error em =>
      simp [parse_xml_response, h] at he
      exact ⟨⟨em, rfl⟩, by rw [← he]⟩
    | ok root => simp [parse_xml_response, h] at he
  · intro root hr
    unfold parse_xml_response
    rw [hr]
    exact ⟨_, rfl, rfl, rfl⟩

/-- Witness for C8: the error branch with a parser that rejects `"<bad"`,
and the success branch on a root element with `status="success"`. -/
theorem parse_xml_response_correct_witness :
    (parse_xml_response (fun _ => .error "syntax error") "<bad"
        = .error ⟨"Failed to parse XML response: syntax error",
            some "XML_PARSE_ERROR",
            [("raw_response", .str ⟨("<bad" : String).data.take 500⟩)]⟩
      ∧ (String.mk (("<bad" : String).data.take 500)).length ≤ 500)
    ∧ ∃ r, parse_xml_response
        (fun _ => .ok (.mk "response" [("status", "success")] .nil none))
        "<response status=\x22success\x22/>" = .ok r
      ∧ r.success = ((xmlAttr (.mk "response" [("status", "success")] .nil none)
          "status").getD "unknown" == "success")
      ∧ r.status = (xmlAttr (.mk "response" [("status", "success")] .nil none)
          "status").getD "unknown" :=
  ⟨(parse_xml_response_correct (fun _ => .error "syntax error") "<bad").1
      "syntax error" rfl,
    (parse_xml_response_correct
      (fun _ => .ok (.mk "response" [("status", "success")] .nil none))
      "<response status=\x22success\x22/>").2.2
      (.mk "response" [("status", "success")] .nil none) rfl⟩

/-- Refinement helper: the source translation of `is_upgrade_path_valid`
always succeeds and returns exactly what the spec-worded algorithm
`upgradePathSpec` computes. -/
theorem is_upgrade_path_valid_eq_spec (c t : String)
    (m : List (String × MatrixEntry)) :
    is_upgrade_path_valid c t m = Except.ok (upgradePathSpec c t m) := by
  unfold is_upgrade_path_valid upgradePathSpec
  cases hc : parse_panos_version c <;> cases ht : parse_panos_version t
  · rfl
  · rfl
  · rfl
  · rename_i vc vt
    rw [compare_versions_of_parse hc ht]
    by_cases h0 : versionCmp vc vt = 0
    · simp [h0]
    · by_cases hgt : 0 < versionCmp vc vt
      · simp [h0, hgt]
      · cases he : alistLookup m (majorMinor vc) with
        | none => simp [h0, hgt, he]
        | some entry =>
          by_cases hdir : majorMinor vt ∈ entry.direct_upgrade_to
          · simp [h0, hgt, he, hdir]
          · cases hi : alistLookup entry.intermediate_required (majorMinor vt) <;>
              simp [h0, hgt, he, hdir, hi]

/-- C1: `is_upgrade_path_valid` implements exactly the claimed case
analysis — captured by `upgradePathSpec`, which is written from the claim's
wording: parse failure gives (false, []); EQUAL gives (true, []); GREATER
gives (false, []) regardless of the matrix; otherwise a direct-upgrade hit
gives (true, []), an intermediate-map hit gives (true, sequence), and every
remaining case (including an absent matrix entry) gives (false, []) — and on
the claim's concrete matrix it validates 10.1.0→11.0.0 via ["10.2"] and
rejects 10.1.0→12.0.0. -/
theorem upgrade_path_valid_correct :
    (∀ (c t : String) (m : List (String × MatrixEntry)),
      is_upgrade_path_valid c t m = Except.ok (upgradePathSpec c t m))
    ∧ is_upgrade_path_valid "10.1.0" "11.0.0"
        [("10.1", ⟨["10.2"], [("11.0", ["10.2"])]⟩)] = .ok (true, ["10.2"])
    ∧ is_upgrade_path_valid "10.1.0" "12.0.0"
        [("10.1", ⟨["10.2"], [("11.0", ["10.2"])]⟩)] = .ok (false, []) :=
  ⟨is_upgrade_path_valid_eq_spec, rfl, rfl⟩

/-- C10: `is_upgrade_path_valid` is total and never raises — although it
calls the raising comparator `compare_versions`, it pre-checks that both
strings parse, so the comparator's `INVALID_VERSION` branch is unreachable
and the function always returns an `ok` (bool, list) pair. -/
theorem upgrade_path_never_raises :
    ∀ (c t : String) (m : List (String × MatrixEntry)),
      (∃ (b : Bool) (l : List String),
        is_upgrade_path_valid c t m = Except.ok (b, l))
      ∧ ∀ e : PanosException, is_upgrade_path_valid c t m ≠ Except.error e := by
  intro c t m
  refine ⟨⟨(upgradePathSpec c t m).1, (upgradePathSpec c t m).2, ?_⟩, ?_⟩
  · rw [is_upgrade_path_valid_eq_spec]
  · intro e h
    rw [is_upgrade_path_valid_eq_spec] at h
    cases h

/-- C9: `panos_normalize_version` returns `major.minor.patch` when the
parsed hotfix is 0 and `major.minor.patch-h{hotfix}` when it is positive,
and returns the original input unchanged (it is a total `String`-valued
function, so never null and never an error) when the input is unparseable;
in particular it fixes `"10.2.9"` and `"10.2.9-h1"`. -/
theorem normalize_version_correct :
    (∀ s : String, parse_panos_version s = none → panos_normalize_version s = s)
    ∧ (∀ (s : String) (p : ParsedVersion), parse_panos_version s = some p →
        (p.hotfix = 0 → panos_normalize_version s =
          Nat.repr p.major ++ "." ++ Nat.repr p.minor ++ "." ++ Nat.repr p.patch)
        ∧ (0 < p.hotfix → panos_normalize_version s =
          Nat.repr p.major ++ "." ++ Nat.repr p.minor ++ "." ++ Nat.repr p.patch
            ++ "-h" ++ Nat.repr p.hotfix))
    ∧ panos_normalize_version "10.2.9" = "10.2.9"
    ∧ panos_normalize_version "10.2.9-h1" = "10.2.9-h1" := by
  refine ⟨?_, ?_, by decide, by decide⟩
  · intro s h
    simp [panos_normalize_version, h]
  · intro s p hp
    constructor
    · intro h0
      simp [panos_normalize_version, hp, h0]
    · intro hpos
      simp [panos_normalize_version, hp, Nat.pos_iff_ne_zero.mp hpos]

/-- Witness for C9: the unparseable branch at `"garbage"`, the hotfix-0
branch at `"10.2.9"` and the positive-hotfix branch at `"10.2.9-h1"`. -/
theorem normalize_version_correct_witness :
    panos_normalize_version "garbage" = "garbage"
    ∧ panos_normalize_version "10.2.9" =
        Nat.repr 10 ++ "." ++ Nat.repr 2 ++ "." ++ Nat.repr 9
    ∧ panos_normalize_version "10.2.9-h1" =
        Nat.repr 10 ++ "." ++ Nat.repr 2 ++ "." ++ Nat.repr 9 ++ "-h" ++ Nat.repr 1 :=
  ⟨normalize_version_correct.1 "garbage" (by decide),
    (normalize_version_correct.2.1 "10.2.9" ⟨10, 2, 9, 0, 0, "10.2.9"⟩ (by decide)).1 rfl,
    (normalize_version_correct.2.1 "10.2.9-h1" ⟨10, 2, 9, 1, 0, "10.2.9-h1"⟩
      (by decide)).2 (by decide)⟩
